import Mathlib

/-!
Verification of the reconciliation-and-execution core of the
public-health pipeline deployment scripts.

Two components are embedded:

* `DeployProcedures` — the statement splitter of
  `scripts/deploy_procedures.py` (`execute_sql_file`).  Python strings are
  modelled as `List Char`; `pySplit`, `pyStrip`, `pyJoin`, `startsWith` and
  `containsSub` are the exact semantics of `str.split(sep)` (single-character
  separator), `str.strip()`, `sep.join(...)`, `str.startswith` and the
  Python `in` substring test.

* `DeployMasking` — the masking-policy reconciler of
  `scripts/deploy_masking_policies.py`.  The warehouse is a catalog state
  (schemas, tables, policies, column bindings) plus the session's current
  schema; the cursor is a command channel whose per-command faults are
  injected by an `Oracle`.  Each Python function is translated one-to-one;
  uncaught Python exceptions are the `exn` constructor of `PhaseResult`.
-/

namespace DeployProcedures

/-- Semantics of Python `str.strip()`: drop whitespace from both ends. -/
def pyStrip (l : List Char) : List Char :=
  ((l.dropWhile Char.isWhitespace).reverse.dropWhile Char.isWhitespace).reverse

/-- Semantics of Python `str.split(sep)` for a one-character separator:
split on every occurrence, keeping empty fragments (`"".split(c) = [""]`). -/
def pySplit (c : Char) : List Char → List (List Char)
  | [] => [[]]
  | x :: xs =>
    if x = c then [] :: pySplit c xs
    else
      match pySplit c xs with
      | [] => [[x]]
      | y :: ys => (x :: y) :: ys

/-- Semantics of Python `sep.join(parts)`. -/
def pyJoin (sep : List Char) : List (List Char) → List Char
  | [] => []
  | [x] => x
  | x :: y :: ys => x ++ sep ++ pyJoin sep (y :: ys)

/-- Semantics of Python `str.startswith(pat)`. -/
def startsWith : List Char → List Char → Bool
  | [], _ => true
  | _ :: _, [] => false
  | p :: ps, c :: cs => p == c && startsWith ps cs

/-- Semantics of the Python substring test `pat in s`. -/
def containsSub (pat : List Char) : List Char → Bool
  | [] => startsWith pat []
  | c :: rest => startsWith pat (c :: rest) || containsSub pat rest

/-- The procedure-defining keyword looked for by `execute_sql_file`. -/
def procKeyword : List Char := "CREATE OR REPLACE PROCEDURE".data

/-- The line-comment marker dropped from setup text. -/
def commentMarker : List Char := "--".data

/-- The loop of `execute_sql_file` that scans for the first line containing
the procedure keyword (`procedure_start`); `none` is Python's `-1`. -/
def findProcStart : List (List Char) → Option Nat
  | [] => none
  | l :: ls =>
    if containsSub procKeyword l then some 0
    else (findProcStart ls).map (· + 1)

inductive StmtKind where
  | plain
  | procedure_body
deriving DecidableEq, Repr

/-- One executable unit extracted from a SQL script, position preserved. -/
structure Statement where
  text : List Char
  kind : StmtKind
deriving DecidableEq, Repr

/-- The statement splitter of `execute_sql_file` in
`scripts/deploy_procedures.py`: if the script contains the procedure
keyword, lines before the first keyword line are collected (stripped,
dropping blank and `--` comment lines), joined and split naively on `;`;
everything from the keyword line to the end of the script is one verbatim
`procedure_body` statement.  Otherwise the whole script is split on `;`. -/
def splitSqlScript (content : List Char) : List Statement :=
  if containsSub procKeyword content then
    let lines := pySplit '\n' (pyStrip content)
    let i := (findProcStart lines).getD lines.length
    let setupLines := ((lines.take i).map pyStrip).filter
      (fun l => !l.isEmpty && !startsWith commentMarker l)
    let setupSql := pyJoin ['\n'] setupLines
    let setupStmts := ((pySplit ';' setupSql).map pyStrip).filter (fun l => !l.isEmpty)
    let plainStmts := setupStmts.map (fun t => Statement.mk t StmtKind.plain)
    if i < lines.length then
      plainStmts ++ [Statement.mk (pyJoin ['\n'] (lines.drop i)) StmtKind.procedure_body]
    else
      plainStmts
  else
    (((pySplit ';' content).map pyStrip).filter (fun l => !l.isEmpty)).map
      (fun t => Statement.mk t StmtKind.plain)

/-- A concrete procedure-deployment script: two setup statements, then a
procedure whose dollar-quoted body embeds `;` characters. -/
def demoSetup : List (List Char) :=
  ["USE DATABASE PUBLIC_HEALTH_MODERNIZATION_DEMO".data,
   "USE SCHEMA CURATED".data]

def demoProcHead : List Char := "CREATE OR REPLACE PROCEDURE sp_demo()".data

def demoProcRest : List (List Char) :=
  ["RETURNS STRING".data, "LANGUAGE SQL".data, "AS".data, "$$".data,
   "BEGIN".data, "IF x THEN y; END IF;".data, "RETURN 0;".data, "END;".data,
   "$$".data]

def demoScript : List Char :=
  pyJoin ['\n'] (demoSetup.map (fun s => s ++ [';']) ++ (demoProcHead :: demoProcRest))

end DeployProcedures

namespace DeployMasking

/-- The SQL commands issued by `deploy_masking_policies.py`, one constructor
per f-string shape in the script. -/
inductive Command where
  | useSchema (schema : String)
  | showTablesLike (table : String)
  | showPoliciesLike (policy : String)
  | showPolicies
  | alterUnset (table column : String)
  | alterSet (table column policy : String)
  | dropPolicy (policy : String)
  | createPolicy (policy : String) (body : String)
deriving DecidableEq, Repr

/-- Catalog state of the warehouse: schemas, tables keyed by schema,
masking policies keyed by schema (with their body text), and
policy-to-column bindings. -/
structure Warehouse where
  schemas : List String
  tables : List (String × String)
  policies : List (String × String × String)
  bindings : List (String × String × String × String)
deriving DecidableEq, Repr

/-- The command channel: warehouse catalog, ambient session schema set by
`USE SCHEMA`, and a tick counting commands issued so far. -/
structure Chan where
  wh : Warehouse
  ctx : String
  tick : Nat
deriving DecidableEq, Repr

/-- Fault injection for the underlying channel: `o t = true` makes the
command issued at tick `t` raise. -/
def Oracle : Type := Nat → Bool

def bindingMatches (ctx table column : String)
    (b : String × String × String × String) : Bool :=
  b.1 == ctx && b.2.1 == table && b.2.2.1 == column

def bindingUsesPolicy (ctx policy : String)
    (b : String × String × String × String) : Bool :=
  b.1 == ctx && b.2.2.2 == policy

/-- One command on the channel.  Besides injected faults, commands fail the
way the warehouse would: `USE SCHEMA` on a missing schema, `ALTER TABLE` on
a missing table, `SET MASKING POLICY` on a missing policy or an
already-masked column, `DROP MASKING POLICY` on a missing or still-bound
policy, `CREATE MASKING POLICY` on an existing one.  `SHOW` commands are
read-only and report row counts.  The tick always advances; the catalog
changes only on success. -/
def runCmd (o : Oracle) (c : Chan) (cmd : Command) : Chan × Except String Nat :=
  let c' : Chan := { c with tick := c.tick + 1 }
  if o c.tick then (c', Except.error "channel failure")
  else
    match cmd with
    | Command.useSchema s =>
      if c.wh.schemas.contains s then ({ c' with ctx := s }, Except.ok 0)
      else (c', Except.error ("schema not found: " ++ s))
    | Command.showTablesLike tb =>
      (c', Except.ok (if c.wh.tables.contains (c.ctx, tb) then 1 else 0))
    | Command.showPoliciesLike p =>
      (c', Except.ok (if (c.wh.policies.any (fun q => q.1 == c.ctx && q.2.1 == p)) then 1 else 0))
    | Command.showPolicies =>
      (c', Except.ok ((c.wh.policies.filter (fun q => q.1 == c.ctx)).length))
    | Command.alterUnset tb col =>
      if c.wh.tables.contains (c.ctx, tb) then
        ({ c' with wh := { c.wh with
            bindings := c.wh.bindings.filter (fun b => !bindingMatches c.ctx tb col b) } },
         Except.ok 0)
      else (c', Except.error ("table not found: " ++ tb))
    | Command.alterSet tb col p =>
      if !(c.wh.tables.contains (c.ctx, tb)) then
        (c', Except.error ("table not found: " ++ tb))
      else if !(c.wh.policies.any (fun q => q.1 == c.ctx && q.2.1 == p)) then
        (c', Except.error ("policy not found: " ++ p))
      else if c.wh.bindings.any (bindingMatches c.ctx tb col) then
        (c', Except.error "column already has a masking policy")
      else
        ({ c' with wh := { c.wh with
            bindings := c.wh.bindings ++ [(c.ctx, tb, col, p)] } },
         Except.ok 0)
    | Command.dropPolicy p =>
      if !(c.wh.policies.any (fun q => q.1 == c.ctx && q.2.1 == p)) then
        (c', Except.error ("policy not found: " ++ p))
      else if c.wh.bindings.any (bindingUsesPolicy c.ctx p) then
        (c', Except.error "policy is attached to a column")
      else
        ({ c' with wh := { c.wh with
            policies := c.wh.policies.filter (fun q => !(q.1 == c.ctx && q.2.1 == p)) } },
         Except.ok 0)
    | Command.createPolicy p body =>
      if c.wh.policies.any (fun q => q.1 == c.ctx && q.2.1 == p) then
        (c', Except.error "policy already exists")
      else
        ({ c' with wh := { c.wh with
            policies := c.wh.policies ++ [(c.ctx, p, body)] } },
         Except.ok 0)

/-- Rendering of each command back to its SQL text, as built by the
script's f-strings; used for the `command[:60]` fallback description. -/
def renderCommand : Command → String
  | Command.useSchema s => "USE SCHEMA " ++ s
  | Command.showTablesLike tb => "SHOW TABLES LIKE \x27" ++ tb ++ "\x27"
  | Command.showPoliciesLike p => "SHOW MASKING POLICIES LIKE \x27" ++ p ++ "\x27"
  | Command.showPolicies => "SHOW MASKING POLICIES"
  | Command.alterUnset tb col =>
    "ALTER TABLE " ++ tb ++ " MODIFY COLUMN " ++ col ++ " UNSET MASKING POLICY"
  | Command.alterSet tb col p =>
    "ALTER TABLE " ++ tb ++ " MODIFY COLUMN " ++ col ++ " SET MASKING POLICY " ++ p
  | Command.dropPolicy p => "DROP MASKING POLICY " ++ p
  | Command.createPolicy _ body => body

/-- Result of one executed statement or one reconciliation step. -/
structure Outcome where
  description : String
  succeeded : Bool
  error_excerpt : Option String
deriving DecidableEq, Repr

/-- Translation of `execute_with_error_handling`: run the command, catch
any failure, and report it as an `Outcome` whose `error_excerpt` is the
first 100 characters of the error text (`str(e)[:100]`). -/
def execute_with_error_handling (o : Oracle) (c : Chan) (cmd : Command)
    (description : String) : Chan × Outcome :=
  let d := if description.isEmpty then (renderCommand cmd).take 60 else description
  match runCmd o c cmd with
  | (c1, Except.ok _) => (c1, Outcome.mk d true none)
  | (c1, Except.error e) => (c1, Outcome.mk d false (some (e.take 100)))

/-- The hard-coded desired bindings of `get_known_policy_applications`. -/
def get_known_policy_applications : List (String × String × String × String) :=
  [("CURATED", "curated_environmental_data", "facility_address", "address_mask"),
   ("CURATED", "curated_health_indicators", "latitude", "coordinate_mask"),
   ("CURATED", "curated_health_indicators", "longitude", "coordinate_mask"),
   ("DATA_MART", "public_health_dashboard", "total_population", "population_mask")]

/-- Translation of `check_table_exists`: `USE SCHEMA` then
`SHOW TABLES LIKE`, with any exception caught and turned into `false`. -/
def check_table_exists (o : Oracle) (c : Chan) (schema table : String) : Chan × Bool :=
  match runCmd o c (Command.useSchema schema) with
  | (c1, Except.error _) => (c1, false)
  | (c1, Except.ok _) =>
    match runCmd o c1 (Command.showTablesLike table) with
    | (c2, Except.error _) => (c2, false)
    | (c2, Except.ok n) => (c2, decide (0 < n))

/-- Translation of `check_policy_exists`: `USE SCHEMA` then
`SHOW MASKING POLICIES LIKE`, with any exception caught. -/
def check_policy_exists (o : Oracle) (c : Chan) (schema policy : String) : Chan × Bool :=
  match runCmd o c (Command.useSchema schema) with
  | (c1, Except.error _) => (c1, false)
  | (c1, Except.ok _) =>
    match runCmd o c1 (Command.showPoliciesLike policy) with
    | (c2, Except.error _) => (c2, false)
    | (c2, Except.ok n) => (c2, decide (0 < n))

inductive Phase where
  | unset
  | drop
  | create
  | apply
deriving DecidableEq, Repr

/-- One recorded reconciliation step: either an executed statement with its
`Outcome`, or a skipped / already-satisfied step (the script's probe found
the guard object absent or the target already present). -/
inductive Entry where
  | exec (phase : Phase) (schema table column policy : String) (out : Outcome)
  | skip (phase : Phase) (schema table column policy : String)
deriving DecidableEq, Repr

def entryPhase : Entry → Phase
  | Entry.exec ph _ _ _ _ _ => ph
  | Entry.skip ph _ _ _ _ => ph

def entryPolicy : Entry → String
  | Entry.exec _ _ _ _ p _ => p
  | Entry.skip _ _ _ _ p => p

def entryIsSkip : Entry → Bool
  | Entry.exec _ _ _ _ _ _ => false
  | Entry.skip _ _ _ _ _ => true

def entrySucceeded : Entry → Bool
  | Entry.exec _ _ _ _ _ out => out.succeeded
  | Entry.skip _ _ _ _ _ => true

/-- Result of running one phase (or one step of it): either it returned
normally with its recorded entries, or a Python exception escaped while
executing `failed`, carrying the entries recorded before the raise. -/
inductive PhaseResult where
  | ok (c : Chan) (entries : List Entry)
  | exn (c : Chan) (entries : List Entry) (failed : Command) (msg : String)
deriving DecidableEq, Repr

/-- Entries recorded by a phase, whether it returned or raised. -/
def PhaseResult.entries : PhaseResult → List Entry
  | PhaseResult.ok _ es => es
  | PhaseResult.exn _ es _ _ => es

/-- Channel state after a phase, whether it returned or raised. -/
def PhaseResult.chan : PhaseResult → Chan
  | PhaseResult.ok c _ => c
  | PhaseResult.exn c _ _ _ => c

/-- Sequencing of per-item steps inside a phase: a raised exception aborts
the remaining items, keeping the entries recorded so far. -/
def runSteps (step : Chan → α → PhaseResult) (c : Chan) : List α → PhaseResult
  | [] => PhaseResult.ok c []
  | x :: xs =>
    match step c x with
    | PhaseResult.ok c1 es =>
      match runSteps step c1 xs with
      | PhaseResult.ok c2 es2 => PhaseResult.ok c2 (es ++ es2)
      | PhaseResult.exn c2 es2 cmd m => PhaseResult.exn c2 (es ++ es2) cmd m
    | PhaseResult.exn c1 es cmd m => PhaseResult.exn c1 es cmd m

/-- Loop body of `unset_all_masking_policies`: probe the table; if present,
a bare `USE SCHEMA` (uncaught) then the guarded unset statement; if absent,
a skip. -/
def unsetStep (o : Oracle) (c : Chan)
    (b : String × String × String × String) : PhaseResult :=
  match b with
  | (schema, table, column, policy) =>
    match check_table_exists o c schema table with
    | (c1, true) =>
      match runCmd o c1 (Command.useSchema schema) with
      | (c2, Except.error e) => PhaseResult.exn c2 [] (Command.useSchema schema) e
      | (c2, Except.ok _) =>
        let r := execute_with_error_handling o c2 (Command.alterUnset table column)
          ("Unset " ++ policy ++ " from " ++ schema ++ "." ++ table ++ "." ++ column)
        PhaseResult.ok r.1 [Entry.exec Phase.unset schema table column policy r.2]
    | (c1, false) => PhaseResult.ok c1 [Entry.skip Phase.unset schema table column policy]

/-- Translation of `unset_all_masking_policies`. -/
def unset_all_masking_policies (o : Oracle) (c : Chan) : PhaseResult :=
  runSteps (unsetStep o) c get_known_policy_applications

/-- The hard-coded `policies_to_drop` list of `drop_existing_policies`. -/
def policies_to_drop : List (String × String) :=
  [("CURATED", "address_mask"),
   ("CURATED", "coordinate_mask"),
   ("DATA_MART", "population_mask")]

/-- Loop body of `drop_existing_policies`: probe the policy; if present, a
bare `USE SCHEMA` then the guarded drop; if absent, a skip. -/
def dropStep (o : Oracle) (c : Chan) (sp : String × String) : PhaseResult :=
  match sp with
  | (schema, policy) =>
    match check_policy_exists o c schema policy with
    | (c1, true) =>
      match runCmd o c1 (Command.useSchema schema) with
      | (c2, Except.error e) => PhaseResult.exn c2 [] (Command.useSchema schema) e
      | (c2, Except.ok _) =>
        let r := execute_with_error_handling o c2 (Command.dropPolicy policy)
          ("Drop " ++ policy ++ " from " ++ schema)
        PhaseResult.ok r.1 [Entry.exec Phase.drop schema "" "" policy r.2]
    | (c1, false) => PhaseResult.ok c1 [Entry.skip Phase.drop schema "" "" policy]

/-- Translation of `drop_existing_policies`. -/
def drop_existing_policies (o : Oracle) (c : Chan) : PhaseResult :=
  runSteps (dropStep o) c policies_to_drop

/-- The `CREATE MASKING POLICY address_mask ...` body text. -/
def address_mask_body : String :=
  "\n            CREATE MASKING POLICY address_mask AS (val STRING) RETURNS STRING ->\n              CASE \n                WHEN CURRENT_ROLE() IN (\x27DATA_ENGINEER_ROLE\x27) THEN val\n                WHEN CURRENT_ROLE() IN (\x27DATA_ANALYST_ROLE\x27) THEN \n                  CONCAT(LEFT(val, 10), \x27*** [MASKED] ***\x27)\n                ELSE \x27[REDACTED]\x27\n              END\n        "

/-- The `CREATE MASKING POLICY coordinate_mask ...` body text. -/
def coordinate_mask_body : String :=
  "\n            CREATE MASKING POLICY coordinate_mask AS (val FLOAT) RETURNS FLOAT ->\n              CASE \n                WHEN CURRENT_ROLE() IN (\x27DATA_ENGINEER_ROLE\x27) THEN val\n                WHEN CURRENT_ROLE() IN (\x27DATA_ANALYST_ROLE\x27) THEN ROUND(val, 2)\n                ELSE NULL\n              END\n        "

/-- The `CREATE MASKING POLICY population_mask ...` body text. -/
def population_mask_body : String :=
  "\n            CREATE MASKING POLICY population_mask AS (val INTEGER) RETURNS INTEGER ->\n              CASE \n                WHEN CURRENT_ROLE() IN (\x27DATA_ENGINEER_ROLE\x27, \x27DATA_ANALYST_ROLE\x27) THEN val\n                ELSE ROUND(val, -3)\n              END\n        "

/-- One `if not check_policy_exists(...): execute ... else: already exists`
block of `create_masking_policies`; it raises nothing itself. -/
def createOne (o : Oracle) (c : Chan) (schema policy body : String) : Chan × Entry :=
  match check_policy_exists o c schema policy with
  | (c1, true) => (c1, Entry.skip Phase.create schema "" "" policy)
  | (c1, false) =>
    let r := execute_with_error_handling o c1 (Command.createPolicy policy body)
      ("Create " ++ policy ++ " policy")
    (r.1, Entry.exec Phase.create schema "" "" policy r.2)

/-- Translation of `create_masking_policies`: a bare `USE SCHEMA CURATED`,
the address and coordinate blocks, a bare `USE SCHEMA DATA_MART`, then the
population block. -/
def create_masking_policies (o : Oracle) (c : Chan) : PhaseResult :=
  match runCmd o c (Command.useSchema "CURATED") with
  | (c1, Except.error e) => PhaseResult.exn c1 [] (Command.useSchema "CURATED") e
  | (c1, Except.ok _) =>
    let r1 := createOne o c1 "CURATED" "address_mask" address_mask_body
    let r2 := createOne o r1.1 "CURATED" "coordinate_mask" coordinate_mask_body
    match runCmd o r2.1 (Command.useSchema "DATA_MART") with
    | (c4, Except.error e) => PhaseResult.exn c4 [r1.2, r2.2] (Command.useSchema "DATA_MART") e
    | (c4, Except.ok _) =>
      let r3 := createOne o c4 "DATA_MART" "population_mask" population_mask_body
      PhaseResult.ok r3.1 [r1.2, r2.2, r3.2]

/-- The hard-coded `policy_applications` list inside
`apply_masking_policies` (its own copy, not a call to
`get_known_policy_applications`). -/
def policy_applications : List (String × String × String × String) :=
  [("CURATED", "curated_environmental_data", "facility_address", "address_mask"),
   ("CURATED", "curated_health_indicators", "latitude", "coordinate_mask"),
   ("CURATED", "curated_health_indicators", "longitude", "coordinate_mask"),
   ("DATA_MART", "public_health_dashboard", "total_population", "population_mask")]

/-- Loop body of `apply_masking_policies`: a bare `USE SCHEMA` then the
guarded `SET MASKING POLICY` statement — no table-existence probe. -/
def applyStep (o : Oracle) (c : Chan)
    (b : String × String × String × String) : PhaseResult :=
  match b with
  | (schema, table, column, policy) =>
    match runCmd o c (Command.useSchema schema) with
    | (c1, Except.error e) => PhaseResult.exn c1 [] (Command.useSchema schema) e
    | (c1, Except.ok _) =>
      let r := execute_with_error_handling o c1 (Command.alterSet table column policy)
        ("Apply " ++ policy ++ " to " ++ schema ++ "." ++ table ++ "." ++ column)
      PhaseResult.ok r.1 [Entry.exec Phase.apply schema table column policy r.2]

/-- Translation of `apply_masking_policies`. -/
def apply_masking_policies (o : Oracle) (c : Chan) : PhaseResult :=
  runSteps (applyStep o) c policy_applications

/-- The `expected_policies` list of `verify_deployment`. -/
def expected_policies : List (String × String) :=
  [("CURATED", "address_mask"),
   ("CURATED", "coordinate_mask"),
   ("DATA_MART", "population_mask")]

/-- The verification summary printed by `verify_deployment`. -/
structure VerificationSummary where
  curated_policy_count : Nat
  datamart_policy_count : Nat
  policies_verified : Nat
  policies_expected : Nat
  applications_verified : Nat
  applications_total : Nat
deriving DecidableEq, Repr

/-- The `policies_verified` counting loop of `verify_deployment`. -/
def countPolicies (o : Oracle) (c : Chan) : List (String × String) → Chan × Nat
  | [] => (c, 0)
  | sp :: rest =>
    let r := check_policy_exists o c sp.1 sp.2
    let rr := countPolicies o r.1 rest
    (rr.1, (if r.2 then 1 else 0) + rr.2)

/-- The `applications_verified` counting loop of `verify_deployment`. -/
def countApplications (o : Oracle) (c : Chan) :
    List (String × String × String × String) → Chan × Nat
  | [] => (c, 0)
  | b :: rest =>
    let r := check_table_exists o c b.1 b.2.1
    let rr := countApplications o r.1 rest
    (rr.1, (if r.2 then 1 else 0) + rr.2)

/-- Translation of `verify_deployment`: the whole body sits in one
`try/except`, so a raise anywhere yields no summary (`none`) but never
escapes.  The probes count existing policies and existing target tables
against the expected lists. -/
def verify_deployment (o : Oracle) (c : Chan) : Chan × Option VerificationSummary :=
  match runCmd o c (Command.useSchema "CURATED") with
  | (c1, Except.error _) => (c1, none)
  | (c1, Except.ok _) =>
    match runCmd o c1 Command.showPolicies with
    | (c2, Except.error _) => (c2, none)
    | (c2, Except.ok nCur) =>
      match runCmd o c2 (Command.useSchema "DATA_MART") with
      | (c3, Except.error _) => (c3, none)
      | (c3, Except.ok _) =>
        match runCmd o c3 Command.showPolicies with
        | (c4, Except.error _) => (c4, none)
        | (c4, Except.ok nDm) =>
          let rp := countPolicies o c4 expected_policies
          let ra := countApplications o rp.1 get_known_policy_applications
          (ra.1, some (VerificationSummary.mk nCur nDm
            rp.2 expected_policies.length ra.2 get_known_policy_applications.length))

/-- Result of one `main()` run: whether the connection was established,
whether the process completed without an uncaught exception (exit 0), the
recorded reconciliation entries in order, the verification summary (when
`verify_deployment` reached its counts), the command whose uncaught raise
aborted the run (if any), and the final channel. -/
structure RunResult where
  connected : Bool
  exitOk : Bool
  report : List Entry
  summary : Option VerificationSummary
  abortedOn : Option Command
  final : Chan
deriving DecidableEq, Repr

/-- Translation of `main`: connect, then unset → drop → create → apply →
verify in order; an exception escaping a phase aborts the run (exit 1),
keeping the entries recorded before it. -/
def mainRun (o : Oracle) (connectOk : Bool) (w : Warehouse) : RunResult :=
  match connectOk with
  | false => RunResult.mk false false [] none none (Chan.mk w "" 0)
  | true =>
    match unset_all_masking_policies o (Chan.mk w "" 0) with
    | PhaseResult.exn c es cmd _ => RunResult.mk true false es none (some cmd) c
    | PhaseResult.ok c1 es1 =>
      match drop_existing_policies o c1 with
      | PhaseResult.exn c es cmd _ => RunResult.mk true false (es1 ++ es) none (some cmd) c
      | PhaseResult.ok c2 es2 =>
        match create_masking_policies o c2 with
        | PhaseResult.exn c es cmd _ =>
          RunResult.mk true false (es1 ++ es2 ++ es) none (some cmd) c
        | PhaseResult.ok c3 es3 =>
          match apply_masking_policies o c3 with
          | PhaseResult.exn c es cmd _ =>
            RunResult.mk true false (es1 ++ es2 ++ es3 ++ es) none (some cmd) c
          | PhaseResult.ok c4 es4 =>
            let v := verify_deployment o c4
            RunResult.mk true true (es1 ++ es2 ++ es3 ++ es4) v.2 none v.1

/-- An oracle that injects no channel faults. -/
def noFaults : Oracle := fun _ => false

/-- A deployment target in which both schemas and every target table of the
four desired bindings exist, with no policies or bindings yet. -/
def demoWarehouse : Warehouse :=
  Warehouse.mk ["CURATED", "DATA_MART"]
    [("CURATED", "curated_environmental_data"),
     ("CURATED", "curated_health_indicators"),
     ("DATA_MART", "public_health_dashboard")]
    [] []

/-- Same target but with the `public_health_dashboard` table absent. -/
def missingTableWarehouse : Warehouse :=
  Warehouse.mk ["CURATED", "DATA_MART"]
    [("CURATED", "curated_environmental_data"),
     ("CURATED", "curated_health_indicators")]
    [] []

/-- A target with no schemas, tables or policies at all. -/
def emptyWarehouse : Warehouse := Warehouse.mk [] [] [] []

/-- A fault-free reconciliation run against `demoWarehouse`. -/
def firstRun : RunResult := mainRun noFaults true demoWarehouse

/-- A second fault-free run, started on the state the first run left. -/
def secondRun : RunResult := mainRun noFaults true firstRun.final.wh

end DeployMasking

set_option maxRecDepth 100000

namespace DeployMasking

/-- C10: the hard-coded `policy_applications` list that the Apply phase
iterates is element-for-element equal to the list returned by
`get_known_policy_applications`, which the Unset and Verify phases use. -/
theorem apply_list_equals_known_applications :
    policy_applications = get_known_policy_applications := rfl

/-- C9: with the desired bindings equal to the fixed four-tuple list and
every target table of those bindings present, a full fault-free
reconcile-and-verify cycle reports 4 of 4 bindings found and 3 of 3
expected policies found, and the run completes successfully. -/
theorem full_cycle_verification_counts :
    ((mainRun noFaults true demoWarehouse).summary.map fun s =>
        (s.policies_verified, s.policies_expected,
         s.applications_verified, s.applications_total)) = some (3, 3, 4, 4) ∧
    (mainRun noFaults true demoWarehouse).exitOk = true := by
  decide

/-- C3 counterexample: on the state left by a successful first run, the
second run's report is not made of already-satisfied / no-op outcomes —
it contains re-executed statements (the claim, as stated, is false). -/
theorem second_run_not_all_noop :
    (secondRun.report.all entryIsSkip) = false := by
  decide

/-- C3 amended: the second fault-free run leaves the warehouse state
unchanged and succeeds, but every recorded outcome is a re-executed
unset/drop/create/apply statement (all succeeding), not a skip. -/
theorem second_run_state_unchanged_but_reexecutes :
    secondRun.final.wh = firstRun.final.wh ∧
    secondRun.exitOk = true ∧
    (secondRun.report.all entrySucceeded) = true ∧
    (secondRun.report.all fun e => !entryIsSkip e) = true := by
  decide

/-- C8 counterexample: the Verifier's probes issue `USE SCHEMA`
statements, so a verification pass changes the session's current-schema
context (the claim that it has no side effect on the session is false). -/
theorem verifier_moves_session_context :
    ((verify_deployment noFaults (Chan.mk demoWarehouse "LANDING_RAW" 0)).1).ctx ≠
      (Chan.mk demoWarehouse "LANDING_RAW" 0).ctx := by
  decide

/-- C1: with `public_health_dashboard` absent, the Apply phase does not
probe and skip — it issues the bind statement anyway, which fails and is
recorded as a caught failure outcome; the run still exits successfully.
This contradicts the claim (and the script's own comment, which says
policies are applied only if the tables exist). -/
theorem apply_missing_table_records_failure :
    (mainRun noFaults true missingTableWarehouse).exitOk = true ∧
    ((mainRun noFaults true missingTableWarehouse).report.filter
        (fun e => entryPhase e == Phase.apply && entryIsSkip e)) = [] ∧
    (Entry.exec Phase.apply "DATA_MART" "public_health_dashboard"
        "total_population" "population_mask"
        (Outcome.mk
          "Apply population_mask to DATA_MART.public_health_dashboard.total_population"
          false (some "table not found: public_health_dashboard")))
      ∈ (mainRun noFaults true missingTableWarehouse).report ∧
    ((mainRun noFaults true missingTableWarehouse).summary.map fun s =>
        (s.applications_verified, s.applications_total)) = some (3, 4) := by
  decide

/-- C5: the guarded executor never lets a channel failure escape — a
failing command yields an `Outcome` with `succeeded = false` whose
`error_excerpt` is the first 100 characters of the error text, and a
succeeding command yields `succeeded = true` with no excerpt. -/
theorem executor_converts_failures_to_outcomes (o : Oracle) (c : Chan)
    (cmd : Command) (d : String) :
    (∀ c1 e, runCmd o c cmd = (c1, Except.error e) →
      execute_with_error_handling o c cmd d =
        (c1, Outcome.mk (if d.isEmpty then (renderCommand cmd).take 60 else d)
          false (some (e.take 100)))) ∧
    (∀ c1 n, runCmd o c cmd = (c1, Except.ok n) →
      execute_with_error_handling o c cmd d =
        (c1, Outcome.mk (if d.isEmpty then (renderCommand cmd).take 60 else d)
          true none)) := by
  constructor
  · intro c1 e h
    simp [execute_with_error_handling, h]
  · intro c1 n h
    simp [execute_with_error_handling, h]

/-- Witness for the executor contract at concrete inputs: a channel fault
is caught and truncated, a clean command reports success. -/
theorem executor_converts_failures_to_outcomes_witness :
    (execute_with_error_handling (fun _ => true) (Chan.mk demoWarehouse "" 0)
        (Command.useSchema "CURATED") "d" =
      (Chan.mk demoWarehouse "" 1,
        Outcome.mk "d" false (some "channel failure"))) ∧
    (execute_with_error_handling noFaults (Chan.mk demoWarehouse "" 0)
        (Command.useSchema "CURATED") "d" =
      (Chan.mk demoWarehouse "CURATED" 1, Outcome.mk "d" true none)) := by
  constructor
  · exact (executor_converts_failures_to_outcomes (fun _ => true)
      (Chan.mk demoWarehouse "" 0) (Command.useSchema "CURATED") "d").1
      (Chan.mk demoWarehouse "" 1) "channel failure" rfl
  · exact (executor_converts_failures_to_outcomes noFaults
      (Chan.mk demoWarehouse "" 0) (Command.useSchema "CURATED") "d").2
      (Chan.mk demoWarehouse "CURATED" 1) 0 rfl

/-- C7: a raising catalog lookup inside either existence probe is caught
and reported as object-absent (`false`), never propagated: this covers a
failure of the `USE SCHEMA` step and of the `SHOW ... LIKE` step, for both
the table probe and the policy probe. -/
theorem probe_error_treated_as_absent (o : Oracle) (c : Chan) (s t p : String) :
    (∀ c1 e, runCmd o c (Command.useSchema s) = (c1, Except.error e) →
      (check_table_exists o c s t).2 = false ∧
      (check_policy_exists o c s p).2 = false) ∧
    (∀ c1 n c2 e, runCmd o c (Command.useSchema s) = (c1, Except.ok n) →
      runCmd o c1 (Command.showTablesLike t) = (c2, Except.error e) →
      (check_table_exists o c s t).2 = false) ∧
    (∀ c1 n c2 e, runCmd o c (Command.useSchema s) = (c1, Except.ok n) →
      runCmd o c1 (Command.showPoliciesLike p) = (c2, Except.error e) →
      (check_policy_exists o c s p).2 = false) := by
  refine ⟨?_, ?_, ?_⟩
  · intro c1 e h
    constructor
    · simp [check_table_exists, h]
    · simp [check_policy_exists, h]
  · intro c1 n c2 e h1 h2
    simp [check_table_exists, h1, h2]
  · intro c1 n c2 e h1 h2
    simp [check_policy_exists, h1, h2]

/-- Witness for the probe contract: with a channel that faults on the
first command, both probes report absent on a warehouse whose objects all
exist. -/
theorem probe_error_treated_as_absent_witness :
    (check_table_exists (fun _ => true)
      (Chan.mk firstRun.final.wh "" 0) "CURATED" "curated_environmental_data").2 = false ∧
    (check_policy_exists (fun _ => true)
      (Chan.mk firstRun.final.wh "" 0) "CURATED" "address_mask").2 = false := by
  exact (probe_error_treated_as_absent (fun _ => true)
    (Chan.mk firstRun.final.wh "" 0) "CURATED" "curated_environmental_data" "address_mask").1
    (Chan.mk firstRun.final.wh "" 1) "channel failure" rfl

end DeployMasking

namespace DeployMasking

theorem unsetStep_cases (o : Oracle) (c : Chan) (b : String × String × String × String) :
    (∃ c1 out, unsetStep o c b =
        PhaseResult.ok c1 [Entry.exec Phase.unset b.1 b.2.1 b.2.2.1 b.2.2.2 out]) ∨
    (∃ c1, unsetStep o c b =
        PhaseResult.ok c1 [Entry.skip Phase.unset b.1 b.2.1 b.2.2.1 b.2.2.2]) ∨
    (∃ c1 e, unsetStep o c b = PhaseResult.exn c1 [] (Command.useSchema b.1) e) := by
  obtain ⟨s, t, col, p⟩ := b
  unfold unsetStep
  dsimp only
  rcases hct : check_table_exists o c s t with ⟨c1, b1⟩
  cases b1 with
  | false => exact Or.inr (Or.inl ⟨_, rfl⟩)
  | true =>
    dsimp only
    rcases hrc : runCmd o c1 (Command.useSchema s) with ⟨c2, r2⟩
    cases r2 with
    | error e => exact Or.inr (Or.inr ⟨_, _, rfl⟩)
    | ok n => exact Or.inl ⟨_, _, rfl⟩

theorem dropStep_cases (o : Oracle) (c : Chan) (sp : String × String) :
    (∃ c1 out, dropStep o c sp = PhaseResult.ok c1 [Entry.exec Phase.drop sp.1 "" "" sp.2 out]) ∨
    (∃ c1, dropStep o c sp = PhaseResult.ok c1 [Entry.skip Phase.drop sp.1 "" "" sp.2]) ∨
    (∃ c1 e, dropStep o c sp = PhaseResult.exn c1 [] (Command.useSchema sp.1) e) := by
  obtain ⟨s, p⟩ := sp
  unfold dropStep
  dsimp only
  rcases hct : check_policy_exists o c s p with ⟨c1, b1⟩
  cases b1 with
  | false => exact Or.inr (Or.inl ⟨_, rfl⟩)
  | true =>
    dsimp only
    rcases hrc : runCmd o c1 (Command.useSchema s) with ⟨c2, r2⟩
    cases r2 with
    | error e => exact Or.inr (Or.inr ⟨_, _, rfl⟩)
    | ok n => exact Or.inl ⟨_, _, rfl⟩

theorem applyStep_cases (o : Oracle) (c : Chan) (b : String × String × String × String) :
    (∃ c1 out, applyStep o c b =
        PhaseResult.ok c1 [Entry.exec Phase.apply b.1 b.2.1 b.2.2.1 b.2.2.2 out]) ∨
    (∃ c1 e, applyStep o c b = PhaseResult.exn c1 [] (Command.useSchema b.1) e) := by
  obtain ⟨s, t, col, p⟩ := b
  unfold applyStep
  dsimp only
  rcases hrc : runCmd o c (Command.useSchema s) with ⟨c1, r1⟩
  cases r1 with
  | error e => exact Or.inr ⟨_, _, rfl⟩
  | ok n => exact Or.inl ⟨_, _, rfl⟩

theorem createOne_entry (o : Oracle) (c : Chan) (s p body : String) :
    entryPhase (createOne o c s p body).2 = Phase.create ∧
    entryPolicy (createOne o c s p body).2 = p := by
  unfold createOne
  rcases hcp : check_policy_exists o c s p with ⟨c1, b1⟩
  cases b1 <;> simp [entryPhase, entryPolicy]

theorem create_masking_policies_cases (o : Oracle) (c : Chan) :
    (∃ c' e1 e2 e3, create_masking_policies o c = PhaseResult.ok c' [e1, e2, e3] ∧
      entryPhase e1 = Phase.create ∧ entryPolicy e1 = "address_mask" ∧
      entryPhase e2 = Phase.create ∧ entryPolicy e2 = "coordinate_mask" ∧
      entryPhase e3 = Phase.create ∧ entryPolicy e3 = "population_mask") ∨
    (∃ c' es s e, create_masking_policies o c = PhaseResult.exn c' es (Command.useSchema s) e ∧
      ∀ x ∈ es, entryPhase x = Phase.create ∧
        (entryPolicy x = "address_mask" ∨ entryPolicy x = "coordinate_mask" ∨
          entryPolicy x = "population_mask")) := by
  unfold create_masking_policies
  rcases h1 : runCmd o c (Command.useSchema "CURATED") with ⟨c1, r1⟩
  cases r1 with
  | error e =>
    refine Or.inr ⟨_, [], "CURATED", _, rfl, ?_⟩
    intro x hx
    simp at hx
  | ok n =>
    dsimp only
    rcases h2 : runCmd o (createOne o (createOne o c1 "CURATED" "address_mask"
        address_mask_body).1 "CURATED" "coordinate_mask" coordinate_mask_body).1
        (Command.useSchema "DATA_MART") with ⟨c4, r4⟩
    cases r4 with
    | error e =>
      refine Or.inr ⟨_, _, "DATA_MART", _, rfl, ?_⟩
      intro x hx
      simp only [List.mem_cons, List.not_mem_nil, or_false] at hx
      rcases hx with rfl | rfl
      · exact ⟨(createOne_entry o _ _ _ _).1, Or.inl (createOne_entry o _ _ _ _).2⟩
      · exact ⟨(createOne_entry o _ _ _ _).1, Or.inr (Or.inl (createOne_entry o _ _ _ _).2)⟩
    | ok m =>
      exact Or.inl ⟨_, _, _, _, rfl, (createOne_entry o _ _ _ _).1,
        (createOne_entry o _ _ _ _).2, (createOne_entry o _ _ _ _).1,
        (createOne_entry o _ _ _ _).2, (createOne_entry o _ _ _ _).1,
        (createOne_entry o _ _ _ _).2⟩

end DeployMasking

namespace DeployMasking

theorem runSteps_entries_of {α : Type} (step : Chan → α → PhaseResult) (l : List α)
    (Q : Entry → Prop)
    (hstep : ∀ c x, x ∈ l → ∀ e ∈ (step c x).entries, Q e) :
    ∀ c, ∀ e ∈ (runSteps step c l).entries, Q e := by
  induction l with
  | nil =>
    intro c e he
    simp [runSteps, PhaseResult.entries] at he
  | cons x xs ih =>
    intro c e he
    have hx : ∀ c1, ∀ e1 ∈ (step c1 x).entries, Q e1 := fun c1 =>
      hstep c1 x (List.mem_cons_self x xs)
    have hxs : ∀ c1 y, y ∈ xs → ∀ e1 ∈ (step c1 y).entries, Q e1 := fun c1 y hy =>
      hstep c1 y (List.mem_cons_of_mem x hy)
    rcases hs : step c x with ⟨c1, es1⟩ | ⟨c1, es1, cmd1, m1⟩
    · rcases hr : runSteps step c1 xs with ⟨c2, es2⟩ | ⟨c2, es2, cmd2, m2⟩
      · simp only [runSteps, hs, hr, PhaseResult.entries, List.mem_append] at he
        rcases he with he | he
        · exact hx c e (by simp [hs, PhaseResult.entries, he])
        · exact ih hxs c1 e (by simp [hr, PhaseResult.entries, he])
      · simp only [runSteps, hs, hr, PhaseResult.entries, List.mem_append] at he
        rcases he with he | he
        · exact hx c e (by simp [hs, PhaseResult.entries, he])
        · exact ih hxs c1 e (by simp [hr, PhaseResult.entries, he])
    · simp only [runSteps, hs, PhaseResult.entries] at he
      exact hx c e (by simp [hs, PhaseResult.entries, he])

theorem runSteps_ok_length {α : Type} (step : Chan → α → PhaseResult) (l : List α)
    (h1 : ∀ c x c1 es, step c x = PhaseResult.ok c1 es → es.length = 1) :
    ∀ c c' es, runSteps step c l = PhaseResult.ok c' es → es.length = l.length := by
  induction l with
  | nil =>
    intro c c' es h
    simp only [runSteps] at h
    cases h
    rfl
  | cons x xs ih =>
    intro c c' es h
    rcases hs : step c x with ⟨c1, es1⟩ | ⟨c1, es1, cmd1, m1⟩
    · rcases hr : runSteps step c1 xs with ⟨c2, es2⟩ | ⟨c2, es2, cmd2, m2⟩
      · simp only [runSteps, hs, hr] at h
        cases h
        have l1 := h1 c x c1 es1 hs
        have l2 := ih c1 _ es2 hr
        simp only [List.length_append, List.length_cons, l1, l2]
        omega
      · simp only [runSteps, hs, hr] at h
        exact PhaseResult.noConfusion h
    · simp only [runSteps, hs] at h
      exact PhaseResult.noConfusion h

theorem runSteps_exn_cmd {α : Type} (step : Chan → α → PhaseResult) (l : List α)
    (P : Command → Prop)
    (h1 : ∀ c x c1 es cmd m, step c x = PhaseResult.exn c1 es cmd m → P cmd) :
    ∀ c c' es cmd m, runSteps step c l = PhaseResult.exn c' es cmd m → P cmd := by
  induction l with
  | nil =>
    intro c c' es cmd m h
    simp [runSteps] at h
  | cons x xs ih =>
    intro c c' es cmd m h
    rcases hs : step c x with ⟨c1, es1⟩ | ⟨c1, es1, cmd1, m1⟩
    · rcases hr : runSteps step c1 xs with ⟨c2, es2⟩ | ⟨c2, es2, cmd2, m2⟩
      · simp only [runSteps, hs, hr] at h
        exact PhaseResult.noConfusion h
      · simp only [runSteps, hs, hr] at h
        cases h
        exact ih c1 _ es2 _ _ hr
    · simp only [runSteps, hs] at h
      cases h
      exact h1 c x _ _ _ _ hs

end DeployMasking

namespace DeployMasking

theorem unset_phase_entries (o : Oracle) (c : Chan) :
    ∀ e ∈ (unset_all_masking_policies o c).entries, entryPhase e = Phase.unset := by
  unfold unset_all_masking_policies
  refine runSteps_entries_of _ _ _ ?_ c
  intro c1 x _ e he
  rcases unsetStep_cases o c1 x with ⟨a, out, h⟩ | ⟨a, h⟩ | ⟨a, m, h⟩ <;> rw [h] at he
  · simp only [PhaseResult.entries, List.mem_singleton] at he
    subst he
    rfl
  · simp only [PhaseResult.entries, List.mem_singleton] at he
    subst he
    rfl
  · simp [PhaseResult.entries] at he

theorem drop_phase_entries (o : Oracle) (c : Chan) :
    ∀ e ∈ (drop_existing_policies o c).entries, entryPhase e = Phase.drop := by
  unfold drop_existing_policies
  refine runSteps_entries_of _ _ _ ?_ c
  intro c1 x _ e he
  rcases dropStep_cases o c1 x with ⟨a, out, h⟩ | ⟨a, h⟩ | ⟨a, m, h⟩ <;> rw [h] at he
  · simp only [PhaseResult.entries, List.mem_singleton] at he
    subst he
    rfl
  · simp only [PhaseResult.entries, List.mem_singleton] at he
    subst he
    rfl
  · simp [PhaseResult.entries] at he

theorem create_phase_entries (o : Oracle) (c : Chan) :
    ∀ e ∈ (create_masking_policies o c).entries, entryPhase e = Phase.create := by
  intro e he
  rcases create_masking_policies_cases o c with
    ⟨c', e1, e2, e3, h, h1, _, h2, _, h3, _⟩ | ⟨c', es, s, msg, h, hall⟩
  · rw [h] at he
    simp only [PhaseResult.entries, List.mem_cons, List.not_mem_nil, or_false] at he
    rcases he with rfl | rfl | rfl <;> assumption
  · rw [h] at he
    simp only [PhaseResult.entries] at he
    exact (hall e he).1

theorem apply_phase_entries (o : Oracle) (c : Chan) :
    ∀ e ∈ (apply_masking_policies o c).entries, entryPhase e = Phase.apply ∧
      (entryPolicy e = "address_mask" ∨ entryPolicy e = "coordinate_mask" ∨
        entryPolicy e = "population_mask") := by
  unfold apply_masking_policies
  refine runSteps_entries_of _ _ _ ?_ c
  intro c1 x hx e he
  rcases applyStep_cases o c1 x with ⟨a, out, h⟩ | ⟨a, m, h⟩ <;> rw [h] at he
  · simp only [PhaseResult.entries, List.mem_singleton] at he
    subst he
    refine ⟨rfl, ?_⟩
    simp only [entryPolicy]
    simp only [policy_applications, List.mem_cons, List.not_mem_nil, or_false] at hx
    rcases hx with rfl | rfl | rfl | rfl <;> simp
  · simp [PhaseResult.entries] at he

theorem unset_exn_use_schema (o : Oracle) (c c' : Chan) (es : List Entry)
    (cmd : Command) (m : String)
    (h : unset_all_masking_policies o c = PhaseResult.exn c' es cmd m) :
    ∃ s, cmd = Command.useSchema s := by
  unfold unset_all_masking_policies at h
  refine runSteps_exn_cmd _ _ (fun cmd => ∃ s, cmd = Command.useSchema s) ?_ c c' es cmd m h
  intro c1 x c2 es1 cmd1 m1 hs
  rcases unsetStep_cases o c1 x with ⟨a, out, hh⟩ | ⟨a, hh⟩ | ⟨a, mm, hh⟩ <;> rw [hh] at hs
  · exact PhaseResult.noConfusion hs
  · exact PhaseResult.noConfusion hs
  · cases hs
    exact ⟨x.1, rfl⟩

theorem drop_exn_use_schema (o : Oracle) (c c' : Chan) (es : List Entry)
    (cmd : Command) (m : String)
    (h : drop_existing_policies o c = PhaseResult.exn c' es cmd m) :
    ∃ s, cmd = Command.useSchema s := by
  unfold drop_existing_policies at h
  refine runSteps_exn_cmd _ _ (fun cmd => ∃ s, cmd = Command.useSchema s) ?_ c c' es cmd m h
  intro c1 x c2 es1 cmd1 m1 hs
  rcases dropStep_cases o c1 x with ⟨a, out, hh⟩ | ⟨a, hh⟩ | ⟨a, mm, hh⟩ <;> rw [hh] at hs
  · exact PhaseResult.noConfusion hs
  · exact PhaseResult.noConfusion hs
  · cases hs
    exact ⟨x.1, rfl⟩

theorem create_exn_use_schema (o : Oracle) (c c' : Chan) (es : List Entry)
    (cmd : Command) (m : String)
    (h : create_masking_policies o c = PhaseResult.exn c' es cmd m) :
    ∃ s, cmd = Command.useSchema s := by
  rcases create_masking_policies_cases o c with
    ⟨a, e1, e2, e3, hh, _⟩ | ⟨a, es2, s, msg, hh, _⟩ <;> rw [hh] at h
  · exact PhaseResult.noConfusion h
  · cases h
    exact ⟨s, rfl⟩

theorem apply_exn_use_schema (o : Oracle) (c c' : Chan) (es : List Entry)
    (cmd : Command) (m : String)
    (h : apply_masking_policies o c = PhaseResult.exn c' es cmd m) :
    ∃ s, cmd = Command.useSchema s := by
  unfold apply_masking_policies at h
  refine runSteps_exn_cmd _ _ (fun cmd => ∃ s, cmd = Command.useSchema s) ?_ c c' es cmd m h
  intro c1 x c2 es1 cmd1 m1 hs
  rcases applyStep_cases o c1 x with ⟨a, out, hh⟩ | ⟨a, mm, hh⟩ <;> rw [hh] at hs
  · exact PhaseResult.noConfusion hs
  · cases hs
    exact ⟨x.1, rfl⟩

theorem unset_ok_length (o : Oracle) (c c' : Chan) (es : List Entry)
    (h : unset_all_masking_policies o c = PhaseResult.ok c' es) : es.length = 4 := by
  unfold unset_all_masking_policies at h
  have hlen := runSteps_ok_length (unsetStep o) get_known_policy_applications ?_ c c' es h
  · simpa [get_known_policy_applications] using hlen
  · intro c1 x c2 es1 hs
    rcases unsetStep_cases o c1 x with ⟨a, out, hh⟩ | ⟨a, hh⟩ | ⟨a, mm, hh⟩ <;> rw [hh] at hs
    · cases hs; rfl
    · cases hs; rfl
    · exact PhaseResult.noConfusion hs

theorem drop_ok_length (o : Oracle) (c c' : Chan) (es : List Entry)
    (h : drop_existing_policies o c = PhaseResult.ok c' es) : es.length = 3 := by
  unfold drop_existing_policies at h
  have hlen := runSteps_ok_length (dropStep o) policies_to_drop ?_ c c' es h
  · simpa [policies_to_drop] using hlen
  · intro c1 x c2 es1 hs
    rcases dropStep_cases o c1 x with ⟨a, out, hh⟩ | ⟨a, hh⟩ | ⟨a, mm, hh⟩ <;> rw [hh] at hs
    · cases hs; rfl
    · cases hs; rfl
    · exact PhaseResult.noConfusion hs

theorem create_ok_length (o : Oracle) (c c' : Chan) (es : List Entry)
    (h : create_masking_policies o c = PhaseResult.ok c' es) : es.length = 3 := by
  rcases create_masking_policies_cases o c with
    ⟨a, e1, e2, e3, hh, _⟩ | ⟨a, es2, s, msg, hh, _⟩ <;> rw [hh] at h
  · cases h
    rfl
  · exact PhaseResult.noConfusion h

theorem apply_ok_length (o : Oracle) (c c' : Chan) (es : List Entry)
    (h : apply_masking_policies o c = PhaseResult.ok c' es) : es.length = 4 := by
  unfold apply_masking_policies at h
  have hlen := runSteps_ok_length (applyStep o) policy_applications ?_ c c' es h
  · simpa [policy_applications] using hlen
  · intro c1 x c2 es1 hs
    rcases applyStep_cases o c1 x with ⟨a, out, hh⟩ | ⟨a, mm, hh⟩ <;> rw [hh] at hs
    · cases hs; rfl
    · exact PhaseResult.noConfusion hs

end DeployMasking

namespace DeployMasking

theorem apply_outcomes_follow_create_outcomes (o : Oracle) (w : Warehouse) :
    ∃ u d cr ap, (mainRun o true w).report = u ++ (d ++ (cr ++ ap)) ∧
      (∀ e ∈ u, entryPhase e = Phase.unset) ∧
      (∀ e ∈ d, entryPhase e = Phase.drop) ∧
      (∀ e ∈ cr, entryPhase e = Phase.create) ∧
      (∀ e ∈ ap, entryPhase e = Phase.apply) ∧
      (∀ e ∈ ap, ∃ e2 ∈ cr, entryPolicy e2 = entryPolicy e) := by
  unfold mainRun
  dsimp only
  have hu1 := unset_phase_entries o (Chan.mk w "" 0)
  rcases hu : unset_all_masking_policies o (Chan.mk w "" 0) with ⟨c1, es1⟩ | ⟨c1, es1, cmd1, m1⟩ <;>
    rw [hu] at hu1 <;> simp only [PhaseResult.entries] at hu1 <;> dsimp only
  · have hd1 := drop_phase_entries o c1
    rcases hd : drop_existing_policies o c1 with ⟨c2, es2⟩ | ⟨c2, es2, cmd2, m2⟩ <;>
      rw [hd] at hd1 <;> simp only [PhaseResult.entries] at hd1 <;> dsimp only
    · have hc1 := create_phase_entries o c2
      rcases hc : create_masking_policies o c2 with ⟨c3, es3⟩ | ⟨c3, es3, cmd3, m3⟩ <;>
        rw [hc] at hc1 <;> simp only [PhaseResult.entries] at hc1 <;> dsimp only
      · have hcr : ∃ e1 e2 e3, es3 = [e1, e2, e3] ∧
            entryPolicy e1 = "address_mask" ∧ entryPolicy e2 = "coordinate_mask" ∧
            entryPolicy e3 = "population_mask" := by
          rcases create_masking_policies_cases o c2 with
            ⟨a, e1, e2, e3, hh, _, p1, _, p2, _, p3⟩ | ⟨a, esx, sx, mx, hh, _⟩
          · rw [hc] at hh
            cases hh
            exact ⟨e1, e2, e3, rfl, p1, p2, p3⟩
          · rw [hc] at hh
            exact PhaseResult.noConfusion hh
        have ha1 := apply_phase_entries o c3
        rcases ha : apply_masking_policies o c3 with ⟨c4, es4⟩ | ⟨c4, es4, cmd4, m4⟩ <;>
          rw [ha] at ha1 <;> simp only [PhaseResult.entries] at ha1 <;> dsimp only
        · refine ⟨es1, es2, es3, es4, by simp, hu1, hd1, hc1, fun e he => (ha1 e he).1, ?_⟩
          intro e he
          rcases hcr with ⟨e1, e2, e3, rfl, p1, p2, p3⟩
          rcases (ha1 e he).2 with hp | hp | hp
          · exact ⟨e1, by simp, by rw [p1, hp]⟩
          · exact ⟨e2, by simp, by rw [p2, hp]⟩
          · exact ⟨e3, by simp, by rw [p3, hp]⟩
        · refine ⟨es1, es2, es3, es4, by simp, hu1, hd1, hc1, fun e he => (ha1 e he).1, ?_⟩
          intro e he
          rcases hcr with ⟨e1, e2, e3, rfl, p1, p2, p3⟩
          rcases (ha1 e he).2 with hp | hp | hp
          · exact ⟨e1, by simp, by rw [p1, hp]⟩
          · exact ⟨e2, by simp, by rw [p2, hp]⟩
          · exact ⟨e3, by simp, by rw [p3, hp]⟩
      · exact ⟨es1, es2, es3, [], by simp, hu1, hd1, hc1, by simp, by simp⟩
    · exact ⟨es1, es2, [], [], by simp, hu1, hd1, by simp, by simp, by simp⟩
  · exact ⟨es1, [], [], [], by simp, hu1, by simp, by simp, by simp, by simp⟩

theorem only_bare_use_schema_aborts (o : Oracle) (w : Warehouse) :
    (∀ cmd, (mainRun o true w).abortedOn = some cmd → ∃ s, cmd = Command.useSchema s) ∧
    ((mainRun o true w).abortedOn = none →
      ((mainRun o true w).report.filter fun e => entryPhase e == Phase.unset).length = 4 ∧
      ((mainRun o true w).report.filter fun e => entryPhase e == Phase.drop).length = 3 ∧
      ((mainRun o true w).report.filter fun e => entryPhase e == Phase.create).length = 3 ∧
      ((mainRun o true w).report.filter fun e => entryPhase e == Phase.apply).length = 4) := by
  unfold mainRun
  dsimp only
  have hu1 := unset_phase_entries o (Chan.mk w "" 0)
  rcases hu : unset_all_masking_policies o (Chan.mk w "" 0) with ⟨c1, es1⟩ | ⟨c1, es1, cmd1, m1⟩ <;>
    rw [hu] at hu1 <;> simp only [PhaseResult.entries] at hu1 <;> dsimp only
  · have hd1 := drop_phase_entries o c1
    rcases hd : drop_existing_policies o c1 with ⟨c2, es2⟩ | ⟨c2, es2, cmd2, m2⟩ <;>
      rw [hd] at hd1 <;> simp only [PhaseResult.entries] at hd1 <;> dsimp only
    · have hc1 := create_phase_entries o c2
      rcases hc : create_masking_policies o c2 with ⟨c3, es3⟩ | ⟨c3, es3, cmd3, m3⟩ <;>
        rw [hc] at hc1 <;> simp only [PhaseResult.entries] at hc1 <;> dsimp only
      · have ha1 := apply_phase_entries o c3
        rcases ha : apply_masking_policies o c3 with ⟨c4, es4⟩ | ⟨c4, es4, cmd4, m4⟩ <;>
          rw [ha] at ha1 <;> simp only [PhaseResult.entries] at ha1 <;> dsimp only
        · constructor
          · intro cmd h
            simp at h
          · intro _
            have fu : es1.filter (fun e => entryPhase e == Phase.unset) = es1 :=
              List.filter_eq_self.mpr (fun e he => by rw [hu1 e he]; rfl)
            have fd : es2.filter (fun e => entryPhase e == Phase.unset) = [] :=
              List.filter_eq_nil_iff.mpr (fun e he => by simp [hd1 e he])
            have fc : es3.filter (fun e => entryPhase e == Phase.unset) = [] :=
              List.filter_eq_nil_iff.mpr (fun e he => by simp [hc1 e he])
            have fa : es4.filter (fun e => entryPhase e == Phase.unset) = [] :=
              List.filter_eq_nil_iff.mpr (fun e he => by simp [(ha1 e he).1])
            have gu : es1.filter (fun e => entryPhase e == Phase.drop) = [] :=
              List.filter_eq_nil_iff.mpr (fun e he => by simp [hu1 e he])
            have gd : es2.filter (fun e => entryPhase e == Phase.drop) = es2 :=
              List.filter_eq_self.mpr (fun e he => by rw [hd1 e he]; rfl)
            have gc : es3.filter (fun e => entryPhase e == Phase.drop) = [] :=
              List.filter_eq_nil_iff.mpr (fun e he => by simp [hc1 e he])
            have ga : es4.filter (fun e => entryPhase e == Phase.drop) = [] :=
              List.filter_eq_nil_iff.mpr (fun e he => by simp [(ha1 e he).1])
            have ku : es1.filter (fun e => entryPhase e == Phase.create) = [] :=
              List.filter_eq_nil_iff.mpr (fun e he => by simp [hu1 e he])
            have kd : es2.filter (fun e => entryPhase e == Phase.create) = [] :=
              List.filter_eq_nil_iff.mpr (fun e he => by simp [hd1 e he])
            have kc : es3.filter (fun e => entryPhase e == Phase.create) = es3 :=
              List.filter_eq_self.mpr (fun e he => by rw [hc1 e he]; rfl)
            have ka : es4.filter (fun e => entryPhase e == Phase.create) = [] :=
              List.filter_eq_nil_iff.mpr (fun e he => by simp [(ha1 e he).1])
            have mu : es1.filter (fun e => entryPhase e == Phase.apply) = [] :=
              List.filter_eq_nil_iff.mpr (fun e he => by simp [hu1 e he])
            have md : es2.filter (fun e => entryPhase e == Phase.apply) = [] :=
              List.filter_eq_nil_iff.mpr (fun e he => by simp [hd1 e he])
            have mc : es3.filter (fun e => entryPhase e == Phase.apply) = [] :=
              List.filter_eq_nil_iff.mpr (fun e he => by simp [hc1 e he])
            have ma : es4.filter (fun e => entryPhase e == Phase.apply) = es4 :=
              List.filter_eq_self.mpr (fun e he => by rw [(ha1 e he).1]; rfl)
            refine ⟨?_, ?_, ?_, ?_⟩ <;>
              simp only [List.filter_append, fu, fd, fc, fa, gu, gd, gc, ga,
                ku, kd, kc, ka, mu, md, mc, ma, List.append_nil, List.nil_append,
                List.length_append, List.length_nil]
            · exact unset_ok_length o _ _ _ hu
            · exact drop_ok_length o _ _ _ hd
            · exact create_ok_length o _ _ _ hc
            · exact apply_ok_length o _ _ _ ha
        · constructor
          · intro cmd h
            simp only [Option.some.injEq] at h
            subst h
            exact apply_exn_use_schema o _ _ _ _ _ ha
          · intro h
            simp at h
      · constructor
        · intro cmd h
          simp only [Option.some.injEq] at h
          subst h
          exact create_exn_use_schema o _ _ _ _ _ hc
        · intro h
          simp at h
    · constructor
      · intro cmd h
        simp only [Option.some.injEq] at h
        subst h
        exact drop_exn_use_schema o _ _ _ _ _ hd
      · intro h
        simp at h
  · constructor
    · intro cmd h
      simp only [Option.some.injEq] at h
      subst h
      exact unset_exn_use_schema o _ _ _ _ _ hu
    · intro h
      simp at h

end DeployMasking

namespace DeployMasking

theorem runCmd_useSchema_wh (o : Oracle) (c : Chan) (s : String) :
    ((runCmd o c (Command.useSchema s)).1).wh = c.wh := by
  unfold runCmd
  dsimp only
  split
  · rfl
  · split <;> rfl

theorem runCmd_showTablesLike_wh (o : Oracle) (c : Chan) (t : String) :
    ((runCmd o c (Command.showTablesLike t)).1).wh = c.wh := by
  unfold runCmd
  dsimp only
  split <;> rfl

theorem runCmd_showPoliciesLike_wh (o : Oracle) (c : Chan) (p : String) :
    ((runCmd o c (Command.showPoliciesLike p)).1).wh = c.wh := by
  unfold runCmd
  dsimp only
  split <;> rfl

theorem runCmd_showPolicies_wh (o : Oracle) (c : Chan) :
    ((runCmd o c Command.showPolicies).1).wh = c.wh := by
  unfold runCmd
  dsimp only
  split <;> rfl

theorem check_table_exists_wh (o : Oracle) (c : Chan) (s t : String) :
    ((check_table_exists o c s t).1).wh = c.wh := by
  unfold check_table_exists
  have w1 := runCmd_useSchema_wh o c s
  rcases h1 : runCmd o c (Command.useSchema s) with ⟨c1, r1⟩
  rw [h1] at w1
  cases r1 with
  | error e => exact w1
  | ok n =>
    dsimp only
    have w2 := runCmd_showTablesLike_wh o c1 t
    rcases h2 : runCmd o c1 (Command.showTablesLike t) with ⟨c2, r2⟩
    rw [h2] at w2
    cases r2 with
    | error e => exact w2.trans w1
    | ok n2 => exact w2.trans w1

theorem check_policy_exists_wh (o : Oracle) (c : Chan) (s p : String) :
    ((check_policy_exists o c s p).1).wh = c.wh := by
  unfold check_policy_exists
  have w1 := runCmd_useSchema_wh o c s
  rcases h1 : runCmd o c (Command.useSchema s) with ⟨c1, r1⟩
  rw [h1] at w1
  cases r1 with
  | error e => exact w1
  | ok n =>
    dsimp only
    have w2 := runCmd_showPoliciesLike_wh o c1 p
    rcases h2 : runCmd o c1 (Command.showPoliciesLike p) with ⟨c2, r2⟩
    rw [h2] at w2
    cases r2 with
    | error e => exact w2.trans w1
    | ok n2 => exact w2.trans w1

theorem countPolicies_wh (o : Oracle) :
    ∀ (l : List (String × String)) (c : Chan), ((countPolicies o c l).1).wh = c.wh := by
  intro l
  induction l with
  | nil => intro c; rfl
  | cons sp rest ih =>
    intro c
    simp only [countPolicies]
    exact (ih _).trans (check_policy_exists_wh o c sp.1 sp.2)

theorem countApplications_wh (o : Oracle) :
    ∀ (l : List (String × String × String × String)) (c : Chan),
      ((countApplications o c l).1).wh = c.wh := by
  intro l
  induction l with
  | nil => intro c; rfl
  | cons b rest ih =>
    intro c
    simp only [countApplications]
    exact (ih _).trans (check_table_exists_wh o c b.1 b.2.1)

/-- C8 amended: the Verifier only issues catalog probes and `SHOW`
queries; a verification pass never changes the warehouse objects (tables,
policies, bindings), whatever the channel faults. -/
theorem verifier_preserves_warehouse_objects (o : Oracle) (c : Chan) :
    ((verify_deployment o c).1).wh = c.wh := by
  unfold verify_deployment
  have w1 := runCmd_useSchema_wh o c "CURATED"
  rcases h1 : runCmd o c (Command.useSchema "CURATED") with ⟨c1, r1⟩
  rw [h1] at w1
  cases r1 with
  | error e => exact w1
  | ok n =>
    dsimp only
    have w2 := runCmd_showPolicies_wh o c1
    rcases h2 : runCmd o c1 Command.showPolicies with ⟨c2, r2⟩
    rw [h2] at w2
    cases r2 with
    | error e => exact w2.trans w1
    | ok nCur =>
      dsimp only
      have w3 := runCmd_useSchema_wh o c2 "DATA_MART"
      rcases h3 : runCmd o c2 (Command.useSchema "DATA_MART") with ⟨c3, r3⟩
      rw [h3] at w3
      cases r3 with
      | error e => exact (w3.trans w2).trans w1
      | ok n3 =>
        dsimp only
        have w4 := runCmd_showPolicies_wh o c3
        rcases h4 : runCmd o c3 Command.showPolicies with ⟨c4, r4⟩
        rw [h4] at w4
        cases r4 with
        | error e => exact ((w4.trans w3).trans w2).trans w1
        | ok nDm =>
          dsimp only
          have w5 := countPolicies_wh o expected_policies c4
          have w6 := countApplications_wh o get_known_policy_applications
            (countPolicies o c4 expected_policies).1
          exact (((w6.trans (w5.trans w4)).trans w3).trans w2).trans w1

end DeployMasking

namespace DeployMasking

/-- Witness for the abort characterization at concrete inputs: against a
warehouse with no schemas, the create phase's bare `USE SCHEMA CURATED`
raises and aborts the run (discharging the abort hypothesis); against
`demoWarehouse` no statement raises uncaught and every phase records its
full complement of outcomes (discharging the no-abort hypothesis). -/
theorem only_bare_use_schema_aborts_witness :
    (∃ s, Command.useSchema "CURATED" = Command.useSchema s) ∧
    (((mainRun noFaults true demoWarehouse).report.filter
        fun e => entryPhase e == Phase.unset).length = 4 ∧
      ((mainRun noFaults true demoWarehouse).report.filter
        fun e => entryPhase e == Phase.drop).length = 3 ∧
      ((mainRun noFaults true demoWarehouse).report.filter
        fun e => entryPhase e == Phase.create).length = 3 ∧
      ((mainRun noFaults true demoWarehouse).report.filter
        fun e => entryPhase e == Phase.apply).length = 4) :=
  ⟨(only_bare_use_schema_aborts noFaults emptyWarehouse).1
      (Command.useSchema "CURATED") (by decide),
   (only_bare_use_schema_aborts noFaults demoWarehouse).2 (by decide)⟩

/-- C4 counterexample: a statement-level failure that is not a connection
failure aborts the whole reconciliation — on a warehouse with no schemas
the connection succeeds, yet the run exits failed, aborted by the create
phase's bare `USE SCHEMA CURATED` statement, and no create or apply
outcome is ever recorded. -/
theorem statement_failure_aborts_run :
    (mainRun noFaults true emptyWarehouse).connected = true ∧
    (mainRun noFaults true emptyWarehouse).exitOk = false ∧
    (mainRun noFaults true emptyWarehouse).abortedOn =
      some (Command.useSchema "CURATED") ∧
    ((mainRun noFaults true emptyWarehouse).report.all
      fun e => entryPhase e == Phase.unset || entryPhase e == Phase.drop) = true := by
  decide

/-- Witness for the ordering theorem at a concrete input: the fault-free
demo run's report decomposes into unset, drop, create and apply segments
with every apply outcome's policy present among the create outcomes. -/
theorem apply_outcomes_follow_create_outcomes_witness :
    ∃ u d cr ap, (mainRun noFaults true demoWarehouse).report = u ++ (d ++ (cr ++ ap)) ∧
      (∀ e ∈ u, entryPhase e = Phase.unset) ∧
      (∀ e ∈ d, entryPhase e = Phase.drop) ∧
      (∀ e ∈ cr, entryPhase e = Phase.create) ∧
      (∀ e ∈ ap, entryPhase e = Phase.apply) ∧
      (∀ e ∈ ap, ∃ e2 ∈ cr, entryPolicy e2 = entryPolicy e) :=
  apply_outcomes_follow_create_outcomes noFaults demoWarehouse

end DeployMasking

namespace DeployProcedures

theorem pySplit_ne_nil (c : Char) : ∀ l : List Char, pySplit c l ≠ [] := by
  intro l
  induction l with
  | nil => simp [pySplit]
  | cons x xs ih =>
    simp only [pySplit]
    split
    · simp
    · rcases h : pySplit c xs with _ | ⟨y, ys⟩
      · exact absurd h ih
      · simp

theorem pySplit_cons_sep (c : Char) (l : List Char) :
    pySplit c (c :: l) = [] :: pySplit c l := by
  simp [pySplit]

theorem pySplit_cons_ne (c x : Char) (l : List Char) (h : x ≠ c)
    (y : List Char) (ys : List (List Char)) (hs : pySplit c l = y :: ys) :
    pySplit c (x :: l) = (x :: y) :: ys := by
  simp only [pySplit, if_neg h, hs]

theorem pySplit_no_sep (c : Char) : ∀ xs : List Char, c ∉ xs → pySplit c xs = [xs] := by
  intro xs
  induction xs with
  | nil => intro _; rfl
  | cons x l ih =>
    intro h
    have hx : x ≠ c := fun hh => h (hh ▸ List.mem_cons_self x l)
    exact pySplit_cons_ne c x l hx l [] (ih fun hm => h (List.mem_cons_of_mem x hm))

theorem pySplit_append_sep (c : Char) : ∀ xs l : List Char, c ∉ xs →
    pySplit c (xs ++ c :: l) = xs :: pySplit c l := by
  intro xs
  induction xs with
  | nil =>
    intro l _
    simp [pySplit_cons_sep]
  | cons x xs' ih =>
    intro l h
    have hx : x ≠ c := fun hh => h (hh ▸ List.mem_cons_self x xs')
    have h' := ih l fun hm => h (List.mem_cons_of_mem x hm)
    rcases hrec : pySplit c l with _ | ⟨y, ys⟩
    · exact absurd hrec (pySplit_ne_nil c l)
    · rw [hrec] at h'
      rw [List.cons_append, pySplit_cons_ne c x (xs' ++ c :: l) hx xs' (y :: ys) h']

theorem pyJoin_cons_of_ne_nil (sep x : List Char) :
    ∀ l : List (List Char), l ≠ [] → pyJoin sep (x :: l) = x ++ sep ++ pyJoin sep l := by
  intro l h
  cases l with
  | nil => exact absurd rfl h
  | cons y ys => rfl

theorem pySplit_pyJoin (c : Char) : ∀ parts : List (List Char), parts ≠ [] →
    (∀ p ∈ parts, c ∉ p) → pySplit c (pyJoin [c] parts) = parts := by
  intro parts
  induction parts with
  | nil => intro h; exact absurd rfl h
  | cons p rest ih =>
    intro _ hall
    cases rest with
    | nil => exact pySplit_no_sep c p (hall p (List.mem_cons_self p []))
    | cons q qs =>
      rw [pyJoin_cons_of_ne_nil [c] p (q :: qs) (by simp)]
      rw [List.append_assoc]
      rw [show ([c] ++ pyJoin [c] (q :: qs)) = c :: pyJoin [c] (q :: qs) from rfl]
      rw [pySplit_append_sep c p _ (hall p (List.mem_cons_self p (q :: qs)))]
      rw [ih (by simp) fun x hx => hall x (List.mem_cons_of_mem p hx)]

end DeployProcedures

namespace DeployProcedures

theorem pySplit_semi_terminated :
    ∀ (stmts : List (List Char)) (s : List Char), (∀ x ∈ s :: stmts, (';') ∉ x) →
    pySplit ';' (pyJoin ['\n'] ((s :: stmts).map (fun t => t ++ [';']))) =
      s :: (stmts.map (fun t => '\n' :: t) ++ [[]]) := by
  intro stmts
  induction stmts with
  | nil =>
    intro s hall
    rw [show pyJoin ['\n'] ([s].map (fun t => t ++ [';'])) = s ++ (';') :: [] from rfl]
    rw [pySplit_append_sep (';') s [] (hall s (List.mem_cons_self s []))]
    rfl
  | cons t rest ih =>
    intro s hall
    have hs : (';') ∉ s := hall s (List.mem_cons_self s (t :: rest))
    have htail : ∀ x ∈ t :: rest, (';') ∉ x := fun x hx =>
      hall x (List.mem_cons_of_mem s hx)
    have hih := ih t htail
    rw [List.map_cons, pyJoin_cons_of_ne_nil ['\n'] (s ++ [';']) _ (by simp)]
    rw [List.append_assoc, List.append_assoc]
    rw [show ([';'] ++ (['\n'] ++ pyJoin ['\n'] ((t :: rest).map (fun x => x ++ [';'])))) =
      (';') :: ('\n') :: pyJoin ['\n'] ((t :: rest).map (fun x => x ++ [';'])) from by simp]
    rw [pySplit_append_sep (';') s _ hs]
    rcases hj : pySplit ';' (pyJoin ['\n'] ((t :: rest).map (fun x => x ++ [';']))) with _ | ⟨y, ys⟩
    · exact absurd hj (pySplit_ne_nil _ _)
    · rw [hj] at hih
      rw [pySplit_cons_ne (';') '\n' _ (by decide) y ys hj]
      cases hih
      simp

theorem pyStrip_cons_ws (x : Char) (l : List Char) (h : x.isWhitespace = true) :
    pyStrip (x :: l) = pyStrip l := by
  simp [pyStrip, List.dropWhile_cons, h]

theorem pyStrip_map_newline (rest : List (List Char)) :
    List.map pyStrip (List.map (fun t => ('\n') :: t) rest) = rest.map pyStrip := by
  rw [List.map_map]
  refine List.map_congr_left ?_
  intro t _
  exact pyStrip_cons_ws '\n' t (by decide)

theorem startsWith_nil_pat (l : List Char) : startsWith [] l = true := by
  cases l <;> rfl

theorem containsSub_nil_pat (l : List Char) : containsSub [] l = true := by
  cases l <;> simp [containsSub, startsWith]

theorem startsWith_append_right (pat : List Char) :
    ∀ l y : List Char, startsWith pat l = true → startsWith pat (l ++ y) = true := by
  induction pat with
  | nil => intro l y _; exact startsWith_nil_pat _
  | cons p ps ih =>
    intro l y h
    cases l with
    | nil => simp [startsWith] at h
    | cons a l' =>
      simp only [startsWith, Bool.and_eq_true, beq_iff_eq] at h
      simp only [List.cons_append, startsWith, Bool.and_eq_true, beq_iff_eq]
      exact ⟨h.1, ih l' y h.2⟩

theorem containsSub_append_right (pat : List Char) :
    ∀ l y : List Char, containsSub pat l = true → containsSub pat (l ++ y) = true := by
  intro l
  induction l with
  | nil =>
    intro y h
    cases pat with
    | nil => exact containsSub_nil_pat y
    | cons p ps => simp [containsSub, startsWith] at h
  | cons a l' ih =>
    intro y h
    simp only [containsSub, Bool.or_eq_true] at h
    rcases h with h | h
    · have := startsWith_append_right pat (a :: l') y h
      simp only [List.cons_append] at this ⊢
      simp [containsSub, this]
    · simp only [List.cons_append, containsSub, Bool.or_eq_true]
      exact Or.inr (ih y h)

theorem containsSub_append_left (pat : List Char) :
    ∀ y l : List Char, containsSub pat l = true → containsSub pat (y ++ l) = true := by
  intro y
  induction y with
  | nil => intro l h; exact h
  | cons a y' ih =>
    intro l h
    simp only [List.cons_append, containsSub, Bool.or_eq_true]
    exact Or.inr (ih l h)

theorem containsSub_pyJoin (sep pat : List Char) :
    ∀ (A : List (List Char)) (hline : List Char) (t : List (List Char)),
      containsSub pat hline = true →
      containsSub pat (pyJoin sep (A ++ hline :: t)) = true := by
  intro A
  induction A with
  | nil =>
    intro hline t hh
    cases t with
    | nil => exact hh
    | cons q qs =>
      rw [List.nil_append, pyJoin_cons_of_ne_nil sep hline (q :: qs) (by simp)]
      rw [List.append_assoc]
      exact containsSub_append_right pat hline _ hh
  | cons a A' ih =>
    intro hline t hh
    rw [List.cons_append, pyJoin_cons_of_ne_nil sep a (A' ++ hline :: t) (by simp)]
    rw [List.append_assoc]
    exact containsSub_append_left pat a _ (containsSub_append_left pat sep _ (ih hline t hh))

theorem findProcStart_append :
    ∀ (A : List (List Char)), (∀ l ∈ A, containsSub procKeyword l = false) →
    ∀ (hline : List Char), containsSub procKeyword hline = true →
    ∀ (t : List (List Char)), findProcStart (A ++ hline :: t) = some A.length := by
  intro A
  induction A with
  | nil =>
    intro _ hline hh t
    simp [findProcStart, hh]
  | cons a A' ih =>
    intro hA hline hh t
    have ha := hA a (List.mem_cons_self a A')
    simp only [List.cons_append, findProcStart, ha, Bool.false_eq_true, if_false,
      List.append_eq]
    rw [ih (fun l hl => hA l (List.mem_cons_of_mem a hl)) hline hh t]
    simp

end DeployProcedures

namespace DeployProcedures

theorem setup_lines_kept (stmts : List (List Char))
    (hstrip : ∀ s ∈ stmts, pyStrip (s ++ [';']) = s ++ [';'])
    (hcm : ∀ s ∈ stmts, startsWith commentMarker (s ++ [';']) = false) :
    ((stmts.map (fun s => s ++ [';'])).map pyStrip).filter
      (fun l => !l.isEmpty && !startsWith commentMarker l) =
      stmts.map (fun s => s ++ [';']) := by
  induction stmts with
  | nil => rfl
  | cons s rest ih =>
    simp only [List.map_cons]
    rw [hstrip s (List.mem_cons_self s rest)]
    rw [List.filter_cons_of_pos]
    · rw [ih (fun x hx => hstrip x (List.mem_cons_of_mem s hx))
        (fun x hx => hcm x (List.mem_cons_of_mem s hx))]
    · simp [hcm s (List.mem_cons_self s rest)]

theorem setup_stmts_extract (stmts : List (List Char))
    (hsemi : ∀ s ∈ stmts, (';') ∉ s)
    (hne : ∀ s ∈ stmts, pyStrip s ≠ []) :
    ((pySplit ';' (pyJoin ['\n'] (stmts.map (fun s => s ++ [';'])))).map pyStrip).filter
      (fun l => !l.isEmpty) = stmts.map pyStrip := by
  cases stmts with
  | nil => rfl
  | cons s rest =>
    rw [pySplit_semi_terminated rest s hsemi]
    simp only [List.map_cons, List.map_append]
    rw [pyStrip_map_newline]
    have h1 : (!(pyStrip s).isEmpty) = true := by
      simpa using hne s (List.mem_cons_self s rest)
    have h2 : List.filter (fun l => !l.isEmpty) (rest.map pyStrip) = rest.map pyStrip := by
      refine List.filter_eq_self.mpr ?_
      intro x hx
      rcases List.mem_map.mp hx with ⟨r, hr, rfl⟩
      simpa using hne r (List.mem_cons_of_mem s hr)
    simp [List.filter_cons, h1, h2, List.filter_append, show pyStrip ([] : List Char) = [] from rfl]

end DeployProcedures

namespace DeployProcedures

/-- C2: for a script made of setup statements (one per line, each
terminated by `;`, none containing `;`, a newline or the procedure
keyword, none blank or a comment) followed by a procedure definition whose
first line contains the keyword, the splitter returns exactly one
Statement per setup statement plus a single final `procedure_body`
Statement holding the text from the keyword line to end-of-script
verbatim, with no further splitting. -/
theorem splitter_emits_setup_then_whole_procedure
    (stmts : List (List Char)) (hline : List Char) (rest : List (List Char))
    (content : List Char)
    (hkw : containsSub procKeyword hline = true)
    (hS : ∀ s ∈ stmts, ('\n') ∉ s ∧ (';') ∉ s ∧
      containsSub procKeyword (s ++ [';']) = false ∧
      pyStrip (s ++ [';']) = s ++ [';'] ∧ pyStrip s ≠ [] ∧
      startsWith commentMarker (s ++ [';']) = false)
    (hP : ∀ l ∈ hline :: rest, ('\n') ∉ l)
    (hc : content = pyJoin ['\n'] (stmts.map (fun s => s ++ [';']) ++ (hline :: rest)))
    (hcs : pyStrip content = content) :
    splitSqlScript content =
      (stmts.map fun s => Statement.mk (pyStrip s) StmtKind.plain) ++
        [Statement.mk (pyJoin ['\n'] (hline :: rest)) StmtKind.procedure_body] ∧
    (splitSqlScript content).length = stmts.length + 1 := by
  subst hc
  have hkwC : containsSub procKeyword
      (pyJoin ['\n'] (stmts.map (fun s => s ++ [';']) ++ (hline :: rest))) = true :=
    containsSub_pyJoin ['\n'] procKeyword _ hline rest hkw
  have hlines : pySplit '\n'
      (pyStrip (pyJoin ['\n'] (stmts.map (fun s => s ++ [';']) ++ (hline :: rest)))) =
      stmts.map (fun s => s ++ [';']) ++ (hline :: rest) := by
    rw [hcs]
    refine pySplit_pyJoin '\n' _ (by simp) ?_
    intro p hp
    rcases List.mem_append.mp hp with hp | hp
    · rcases List.mem_map.mp hp with ⟨s, hs, rfl⟩
      intro hm
      rcases List.mem_append.mp hm with hm | hm
      · exact (hS s hs).1 hm
      · simp at hm
    · exact hP p hp
  have hfind : findProcStart (stmts.map (fun s => s ++ [';']) ++ (hline :: rest)) =
      some (stmts.map (fun s => s ++ [';'])).length := by
    refine findProcStart_append _ ?_ hline hkw rest
    intro l hl
    rcases List.mem_map.mp hl with ⟨s, hs, rfl⟩
    exact (hS s hs).2.2.1
  have hmain : splitSqlScript
      (pyJoin ['\n'] (stmts.map (fun s => s ++ [';']) ++ (hline :: rest))) =
      (stmts.map fun s => Statement.mk (pyStrip s) StmtKind.plain) ++
        [Statement.mk (pyJoin ['\n'] (hline :: rest)) StmtKind.procedure_body] := by
    unfold splitSqlScript
    rw [if_pos hkwC]
    simp only [hlines, hfind, Option.getD_some]
    rw [List.take_left, List.drop_left]
    rw [setup_lines_kept stmts (fun s hs => (hS s hs).2.2.2.1)
      (fun s hs => (hS s hs).2.2.2.2.2)]
    rw [setup_stmts_extract stmts (fun s hs => (hS s hs).2.1)
      (fun s hs => (hS s hs).2.2.2.2.1)]
    rw [if_pos]
    · simp [List.map_map]
    · simp only [List.length_append, List.length_map, List.length_cons]
      omega
  refine ⟨hmain, ?_⟩
  rw [hmain]
  simp

end DeployProcedures

namespace DeployProcedures

/-- Witness for the splitter theorem on the concrete script: 2 + 1
statements, the last the verbatim procedure text. -/
theorem splitter_emits_setup_then_whole_procedure_witness :
    splitSqlScript demoScript =
      (demoSetup.map fun s => Statement.mk (pyStrip s) StmtKind.plain) ++
        [Statement.mk (pyJoin ['\n'] (demoProcHead :: demoProcRest))
          StmtKind.procedure_body] ∧
    (splitSqlScript demoScript).length = demoSetup.length + 1 :=
  splitter_emits_setup_then_whole_procedure demoSetup demoProcHead demoProcRest
    demoScript (by decide) (by decide) (by decide) rfl (by decide)

end DeployProcedures
